import Mathlib

/-!
Verification of the LidarCode repository against its specification.

Embedded artifacts:
* the SQL storage schema (nine CREATE TABLE blocks of the schema document);
* the Arduino MKR Zero IMU firmware (IMU_Data_Collection_v1.ino):
  the 64-bit extension of the 32-bit microsecond clock, and the JSON
  line emission of the main loop;
* spec-modelled components whose code is not in the repository sources
  (SessionManager, WriteCoordinator), each marked in its doc comment.

Numeric modelling: the firmware's float/double values are modelled as
exact fixed-point values (scaled integers); Arduino's String(x, d)
formatting of an already-rounded value becomes fmtFixed d applied to the
scaled integer, and the 1e6 division of getSecondsSinceBoot is exact
rational division.
-/

namespace LidarCode

/-! ## Storage schema embedding (src/unnamed/part_000, SQL blocks) -/

inductive SqlType where
  | integer
  | text
  | bigint
  | real
deriving DecidableEq

structure Column where
  name : String
  ty : SqlType
  notNull : Bool
  primaryKey : Bool
deriving DecidableEq

structure ForeignKey where
  column : String
  refTable : String
  refColumn : String
deriving DecidableEq

/-- A CHECK(col IN (v1, ..., vn)) constraint. -/
structure CheckIn where
  column : String
  allowed : List String
deriving DecidableEq

structure Table where
  name : String
  columns : List Column
  foreignKeys : List ForeignKey
  checks : List CheckIn
deriving DecidableEq

def run_metadata : Table :=
  ⟨"run_metadata",
   [⟨"id", .integer, false, true⟩,
    ⟨"name", .text, false, false⟩,
    ⟨"description", .text, false, false⟩,
    ⟨"type", .text, false, false⟩,
    ⟨"start_time_ns", .bigint, false, false⟩,
    ⟨"end_time_ns", .bigint, false, false⟩],
   [],
   [⟨"type", ["calibration", "scan"]⟩]⟩

def calibration_steps : Table :=
  ⟨"calibration_steps",
   [⟨"id", .integer, false, true⟩,
    ⟨"run_id", .integer, false, false⟩,
    ⟨"step_name", .text, false, false⟩,
    ⟨"instruction", .text, false, false⟩,
    ⟨"start_time_ns", .bigint, false, false⟩,
    ⟨"end_time_ns", .bigint, false, false⟩],
   [⟨"run_id", "run_metadata", "id"⟩],
   []⟩

def calibration_imu_data : Table :=
  ⟨"calibration_imu_data",
   [⟨"id", .integer, false, true⟩,
    ⟨"step_id", .integer, false, false⟩,
    ⟨"pi_timestamp_ns", .bigint, true, false⟩,
    ⟨"arduino_timestamp_s", .real, true, false⟩,
    ⟨"acc_x", .real, false, false⟩,
    ⟨"acc_y", .real, false, false⟩,
    ⟨"acc_z", .real, false, false⟩,
    ⟨"gyro_x", .real, false, false⟩,
    ⟨"gyro_y", .real, false, false⟩,
    ⟨"gyro_z", .real, false, false⟩,
    ⟨"mag_x", .real, false, false⟩,
    ⟨"mag_y", .real, false, false⟩,
    ⟨"mag_z", .real, false, false⟩],
   [⟨"step_id", "calibration_steps", "id"⟩],
   []⟩

def calibration_lidar_data : Table :=
  ⟨"calibration_lidar_data",
   [⟨"id", .integer, false, true⟩,
    ⟨"step_id", .integer, false, false⟩,
    ⟨"pi_timestamp_ns", .bigint, true, false⟩,
    ⟨"lidar_timestamp_s", .real, false, false⟩,
    ⟨"speed", .real, false, false⟩,
    ⟨"start_angle", .real, false, false⟩,
    ⟨"end_angle", .real, false, false⟩],
   [⟨"step_id", "calibration_steps", "id"⟩],
   []⟩

def calibration_lidar_points : Table :=
  ⟨"calibration_lidar_points",
   [⟨"id", .integer, false, true⟩,
    ⟨"scan_id", .integer, false, false⟩,
    ⟨"angle", .real, false, false⟩,
    ⟨"distance", .real, false, false⟩,
    ⟨"intensity", .integer, false, false⟩],
   [⟨"scan_id", "calibration_lidar_data", "id"⟩],
   []⟩

def imu_data : Table :=
  ⟨"imu_data",
   [⟨"id", .integer, false, true⟩,
    ⟨"run_id", .integer, false, false⟩,
    ⟨"pi_timestamp_ns", .bigint, true, false⟩,
    ⟨"arduino_timestamp_s", .real, true, false⟩,
    ⟨"acc_x", .real, false, false⟩,
    ⟨"acc_y", .real, false, false⟩,
    ⟨"acc_z", .real, false, false⟩,
    ⟨"gyro_x", .real, false, false⟩,
    ⟨"gyro_y", .real, false, false⟩,
    ⟨"gyro_z", .real, false, false⟩,
    ⟨"mag_x", .real, false, false⟩,
    ⟨"mag_y", .real, false, false⟩,
    ⟨"mag_z", .real, false, false⟩],
   [⟨"run_id", "run_metadata", "id"⟩],
   []⟩

def lidar_data : Table :=
  ⟨"lidar_data",
   [⟨"id", .integer, false, true⟩,
    ⟨"run_id", .integer, false, false⟩,
    ⟨"pi_timestamp_ns", .bigint, true, false⟩,
    ⟨"lidar_timestamp_s", .real, false, false⟩,
    ⟨"speed", .real, false, false⟩,
    ⟨"start_angle", .real, false, false⟩,
    ⟨"end_angle", .real, false, false⟩],
   [⟨"run_id", "run_metadata", "id"⟩],
   []⟩

def lidar_points : Table :=
  ⟨"lidar_points",
   [⟨"id", .integer, false, true⟩,
    ⟨"scan_id", .integer, false, false⟩,
    ⟨"angle", .real, false, false⟩,
    ⟨"distance", .real, false, false⟩,
    ⟨"intensity", .integer, false, false⟩],
   [⟨"scan_id", "lidar_data", "id"⟩],
   []⟩

def stereo_images : Table :=
  ⟨"stereo_images",
   [⟨"id", .integer, false, true⟩,
    ⟨"run_id", .integer, false, false⟩,
    ⟨"pi_timestamp_ns", .bigint, true, false⟩,
    ⟨"left_image_path", .text, false, false⟩,
    ⟨"right_image_path", .text, false, false⟩],
   [⟨"run_id", "run_metadata", "id"⟩],
   []⟩

/-- The nine CREATE TABLE blocks of the schema document, in source order. -/
def schema : List Table :=
  [run_metadata, calibration_steps, calibration_imu_data, calibration_lidar_data,
   calibration_lidar_points, imu_data, lidar_data, lidar_points, stereo_images]

/-- Declared (table, column) secondary indexes of the schema document.
The DDL contains no CREATE INDEX statement; indexing pi_timestamp_ns is only
recommended in the Notes section. -/
def schemaIndexes : List (String × String) := []

def hasIndexOn (tbl col : String) : Bool :=
  schemaIndexes.any (fun p => p.1 == tbl && p.2 == col)

/-- The timestamped tables of the schema paired with their nanosecond
timestamp column. -/
def timestampedTables : List (String × String) :=
  [("imu_data", "pi_timestamp_ns"),
   ("calibration_imu_data", "pi_timestamp_ns"),
   ("lidar_data", "pi_timestamp_ns"),
   ("calibration_lidar_data", "pi_timestamp_ns"),
   ("stereo_images", "pi_timestamp_ns"),
   ("run_metadata", "start_time_ns"),
   ("calibration_steps", "start_time_ns")]

def lookupTable (n : String) : Option Table :=
  schema.find? (fun t => t.name == n)

def colOf (t : Table) (c : String) : Option Column :=
  t.columns.find? (fun col => col.name == c)

def colNotNull (t : Table) (c : String) : Bool :=
  ((colOf t c).map Column.notNull).getD false

/-! ## Spec-side view of the schema (section 6 of the spec) -/

/-- The shape in which the spec lists a table: name, column names in order,
foreign keys as (column, referenced table), and whether the table carries the
type-in-calibration-scan CHECK. -/
structure SpecTable where
  name : String
  columns : List String
  fks : List (String × String)
  typeCheck : Bool
deriving DecidableEq

/-- The tables exactly as the spec's Persisted-output listing names them. -/
def specListedTables : List SpecTable :=
  [⟨"run_metadata",
    ["id", "name", "description", "type", "start_time_ns", "end_time_ns"], [], true⟩,
   ⟨"calibration_steps",
    ["id", "run_id", "step_name", "instruction", "start_time_ns", "end_time_ns"],
    [("run_id", "run_metadata")], false⟩,
   ⟨"calibration_imu_data",
    ["id", "step_id", "pi_timestamp_ns", "arduino_timestamp_s",
     "acc_x", "acc_y", "acc_z", "gyro_x", "gyro_y", "gyro_z",
     "mag_x", "mag_y", "mag_z"],
    [("step_id", "calibration_steps")], false⟩,
   ⟨"imu_data",
    ["id", "run_id", "pi_timestamp_ns", "arduino_timestamp_s",
     "acc_x", "acc_y", "acc_z", "gyro_x", "gyro_y", "gyro_z",
     "mag_x", "mag_y", "mag_z"],
    [("run_id", "run_metadata")], false⟩,
   ⟨"calibration_lidar_data",
    ["id", "step_id", "pi_timestamp_ns", "lidar_timestamp_s",
     "speed", "start_angle", "end_angle"],
    [("step_id", "calibration_steps")], false⟩,
   ⟨"lidar_data",
    ["id", "run_id", "pi_timestamp_ns", "lidar_timestamp_s",
     "speed", "start_angle", "end_angle"],
    [("run_id", "run_metadata")], false⟩,
   ⟨"calibration_lidar_points",
    ["id", "scan_id", "angle", "distance", "intensity"],
    [("scan_id", "calibration_lidar_data")], false⟩,
   ⟨"lidar_points",
    ["id", "scan_id", "angle", "distance", "intensity"],
    [("scan_id", "lidar_data")], false⟩,
   ⟨"stereo_images",
    ["id", "run_id", "pi_timestamp_ns", "left_image_path", "right_image_path"],
    [("run_id", "run_metadata")], false⟩]

/-- Project an embedded DDL table to the shape in which the spec lists it. -/
def tableToSpecView (t : Table) : SpecTable :=
  ⟨t.name, t.columns.map Column.name,
   t.foreignKeys.map (fun f => (f.column, f.refTable)),
   t.checks.contains ⟨"type", ["calibration", "scan"]⟩⟩

/-! ## Ownership analysis of sensor tables -/

inductive OwnerKind where
  | calibration
  | scan
deriving DecidableEq

/-- Resolve the ultimate owner of a table by following its (unique) foreign
key until it reaches calibration_steps or run_metadata; fuelled recursion. -/
def ownerKindAux : Nat → Table → Option OwnerKind
  | 0, _ => none
  | Nat.succ fuel, t =>
    match t.foreignKeys with
    | [fk] =>
      if fk.refTable = "calibration_steps" then some .calibration
      else if fk.refTable = "run_metadata" then some .scan
      else
        match lookupTable fk.refTable with
        | some t2 => ownerKindAux fuel t2
        | none => none
    | _ => none

def tableOwner (t : Table) : Option OwnerKind := ownerKindAux 3 t

/-- The seven sensor data tables (everything except run_metadata and
calibration_steps). -/
def sensorTables : List Table :=
  [calibration_imu_data, calibration_lidar_data, calibration_lidar_points,
   imu_data, lidar_data, lidar_points, stereo_images]

/-- Sensor tables whose rows carry the owning scope id directly
(the points tables instead reference their owning scan). -/
def directSensorTables : List Table :=
  [calibration_imu_data, calibration_lidar_data, imu_data, lidar_data,
   stereo_images]

/-! ## Firmware clock (IMU_Data_Collection_v1.ino, getSecondsSinceBoot)

The true time since boot is a natural number of microseconds; the Arduino
micros() primitive returns it truncated to 32 bits. lastMicros and
extendedMicros are the firmware's two globals. -/

structure MicrosState where
  lastMicros : Nat
  extendedMicros : Nat
deriving DecidableEq

def bootState : MicrosState := ⟨0, 0⟩

def micros (t : Nat) : Nat := t % 4294967296

def updateMicros (t : Nat) (s : MicrosState) : MicrosState :=
  let now := micros t
  ⟨now, if now < s.lastMicros then s.extendedMicros + 4294967296
        else s.extendedMicros⟩

/-- getSecondsSinceBoot at true time t: update the extended counter, then
return fullMicros divided by 1e6 (exact rational division models the
double division of the source). -/
def getSecondsSinceBoot (t : Nat) (s : MicrosState) : ℚ × MicrosState :=
  let s2 := updateMicros t s
  let fullMicros := s2.extendedMicros + s2.lastMicros
  (((fullMicros : Nat) : ℚ) / 1000000, s2)

/-- Run a sequence of getSecondsSinceBoot calls at the given true times,
collecting the returned values. -/
def runCalls : List Nat → MicrosState → List ℚ
  | [], _ => []
  | t :: rest, s =>
    (getSecondsSinceBoot t s).1 :: runCalls rest (getSecondsSinceBoot t s).2

/-- Call times are non-decreasing and consecutive calls (starting from the
previous call, or from boot) are separated by less than 2^32 microseconds. -/
def callsOk : Nat → List Nat → Bool
  | _, [] => true
  | prev, t :: rest =>
    decide (prev ≤ t) && decide (t - prev < 4294967296) && callsOk t rest

/-! ## Firmware JSON emission and event parsing
(IMU_Data_Collection_v1.ino, loop; IngestionWorker parse modelled from the
spec)

Sensor readings are modelled as exact fixed-point values: an Int scaled by
10^d is rendered by fmtFixedChars d exactly as Arduino String(x, d) renders
the already-rounded float. -/

def digitChar : Nat → Char
  | 0 => '0' | 1 => '1' | 2 => '2' | 3 => '3' | 4 => '4'
  | 5 => '5' | 6 => '6' | 7 => '7' | 8 => '8' | _ => '9'

def digitVal (c : Char) : Nat := c.toNat - 48

def natDigits (n : Nat) : List Nat :=
  if n < 10 then [n]
  else natDigits (n / 10) ++ [n % 10]
termination_by n
decreasing_by exact Nat.div_lt_self (by omega) (by omega)

def digitsVal (ds : List Nat) : Nat := ds.foldl (fun a d => a * 10 + d) 0

def headIsDigit : List Char → Bool
  | [] => false
  | c :: _ => c.isDigit

def takeDigits : List Char → List Nat × List Char
  | [] => ([], [])
  | c :: cs =>
    if c.isDigit then
      (digitVal c :: (takeDigits cs).1, (takeDigits cs).2)
    else ([], c :: cs)

def parseJsonInt : List Char → Option (Nat × List Char)
  | [] => none
  | c :: cs =>
    if c = '0' then some (0, cs)
    else if c.isDigit then
      some (digitsVal (digitVal c :: (takeDigits cs).1), (takeDigits cs).2)
    else none

def parseFrac : List Char → Option ((Nat × Nat) × List Char)
  | [] => none
  | c :: cs =>
    if c = '.' then
      if (takeDigits cs).1.isEmpty then none
      else some ((digitsVal (takeDigits cs).1, (takeDigits cs).1.length),
                 (takeDigits cs).2)
    else none

def padFracDigits (d m : Nat) : List Nat :=
  List.replicate (d - (natDigits m).length) 0 ++ natDigits m

structure FixedNum where
  man : Int
  dig : Nat
deriving DecidableEq

def parseUNumber (l : List Char) : Option (FixedNum × List Char) :=
  match parseJsonInt l with
  | none => none
  | some (i, r) =>
    match parseFrac r with
    | some ((f, d), r2) => some (⟨((i * 10 ^ d + f : Nat) : Int), d⟩, r2)
    | none => some (⟨(i : Nat), 0⟩, r)

def parseNumber : List Char → Option (FixedNum × List Char)
  | [] => none
  | c :: cs =>
    if c = '-' then
      match parseUNumber cs with
      | some (n, r) => some (⟨-n.man, n.dig⟩, r)
      | none => none
    else parseUNumber (c :: cs)

def natChars (n : Nat) : List Char := (natDigits n).map digitChar

def fmtFixedChars (d : Nat) (v : Int) : List Char :=
  (if v < 0 then ['-'] else []) ++
    (natChars (v.natAbs / 10 ^ d) ++
      ('.' :: (padFracDigits d (v.natAbs % 10 ^ d)).map digitChar))

def dropLit : List Char → List Char → Option (List Char)
  | [], l => some l
  | _ :: _, [] => none
  | p :: ps, c :: cs => if c = p then dropLit ps cs else none

def parseTriple (l : List Char) :
    Option ((FixedNum × FixedNum × FixedNum) × List Char) :=
  match parseNumber l with
  | none => none
  | some (x, r1) =>
    match dropLit [','] r1 with
    | none => none
    | some r2 =>
      match parseNumber r2 with
      | none => none
      | some (y, r3) =>
        match dropLit [','] r3 with
        | none => none
        | some r4 =>
          match parseNumber r4 with
          | none => none
          | some (z, r5) =>
            match dropLit [']'] r5 with
            | none => none
            | some r6 => some ((x, y, z), r6)

structure ImuRecord where
  t : FixedNum
  accX : FixedNum
  accY : FixedNum
  accZ : FixedNum
  gyroX : FixedNum
  gyroY : FixedNum
  gyroZ : FixedNum
  mag : Option (FixedNum × FixedNum × FixedNum)
deriving DecidableEq

def parseImuChars (l : List Char) : Option ImuRecord :=
  match dropLit "\x7b\"t\":".data l with
  | none => none
  | some r1 =>
    match parseNumber r1 with
    | none => none
    | some (t, r2) =>
      match dropLit ",\"acc\":[".data r2 with
      | none => none
      | some r3 =>
        match parseTriple r3 with
        | none => none
        | some (acc, r4) =>
          match dropLit ",\"gyro\":[".data r4 with
          | none => none
          | some r5 =>
            match parseTriple r5 with
            | none => none
            | some (gyro, r6) =>
              match dropLit ",\"mag\":[".data r6 with
              | some r7 =>
                match parseTriple r7 with
                | none => none
                | some (mag, r8) =>
                  match dropLit "\x7d".data r8 with
                  | some [] =>
                    some ⟨t, acc.1, acc.2.1, acc.2.2,
                          gyro.1, gyro.2.1, gyro.2.2, some mag⟩
                  | _ => none
              | none =>
                match dropLit "\x7d".data r6 with
                | some [] =>
                  some ⟨t, acc.1, acc.2.1, acc.2.2,
                        gyro.1, gyro.2.1, gyro.2.2, none⟩
                | _ => none

def parseImuLine (s : String) : Option ImuRecord := parseImuChars s.data

def fmtFixed (d : Nat) (v : Int) : String := String.mk (fmtFixedChars d v)

def imuJson (t : Nat) (ax ay az gx gy gz : Int)
    (mag : Option (Int × Int × Int)) : String :=
  let json :=
    "\x7b\"t\":" ++ fmtFixed 6 (t : Int) ++
    ",\"acc\":[" ++ fmtFixed 4 ax ++ "," ++ fmtFixed 4 ay ++ "," ++
      fmtFixed 4 az ++ "]" ++
    ",\"gyro\":[" ++ fmtFixed 4 gx ++ "," ++ fmtFixed 4 gy ++ "," ++
      fmtFixed 4 gz ++ "]"
  let json2 :=
    match mag with
    | some (mx, my, mz) =>
      json ++ ",\"mag\":[" ++ fmtFixed 1 mx ++ "," ++ fmtFixed 1 my ++ "," ++
        fmtFixed 1 mz ++ "]"
    | none => json
  json2 ++ "\x7d"

def fmtNum (n : FixedNum) : String :=
  if n.dig = 0 then
    String.mk ((if n.man < 0 then ['-'] else []) ++ natChars n.man.natAbs)
  else fmtFixed n.dig n.man

def serializeRecord (r : ImuRecord) : String :=
  let json :=
    "\x7b\"t\":" ++ fmtNum r.t ++
    ",\"acc\":[" ++ fmtNum r.accX ++ "," ++ fmtNum r.accY ++ "," ++
      fmtNum r.accZ ++ "]" ++
    ",\"gyro\":[" ++ fmtNum r.gyroX ++ "," ++ fmtNum r.gyroY ++ "," ++
      fmtNum r.gyroZ ++ "]"
  let json2 :=
    match r.mag with
    | some (mx, my, mz) =>
      json ++ ",\"mag\":[" ++ fmtNum mx ++ "," ++ fmtNum my ++ "," ++
        fmtNum mz ++ "]"
    | none => json
  json2 ++ "\x7d"

def errorLine : String := "\x7b\"error\":\"sensor read failed\"\x7d"

structure LoopInputs where
  accAvail : Bool
  gyroAvail : Bool
  accOk : Bool
  gyroOk : Bool
  magAvail : Bool
  magOk : Bool
  t : Nat
  ax : Int
  ay : Int
  az : Int
  gx : Int
  gy : Int
  gz : Int
  mx : Int
  my : Int
  mz : Int
deriving DecidableEq

def loopOutput (i : LoopInputs) : Option String :=
  if i.accAvail && i.gyroAvail then
    if !i.accOk || !i.gyroOk then some errorLine
    else
      some (imuJson i.t i.ax i.ay i.az i.gx i.gy i.gz
        (if i.magAvail && i.magOk then some (i.mx, i.my, i.mz) else none))
  else none

def setupLines (imuOk : Bool) : List String :=
  ["Starting...", if imuOk then "IMU.begin() succeeded" else "IMU.begin() failed"]

def firmwareLines (imuOk : Bool) (iters : List LoopInputs) : List String :=
  setupLines imuOk ++ iters.filterMap loopOutput

/-! ## SessionManager (modelled from the spec) -/

inductive RunKind where
  | calibration
  | scan
deriving DecidableEq

structure RunRow where
  id : Nat
  name : String
  description : String
  kind : RunKind
  startNs : Nat
  endNs : Option Nat
deriving DecidableEq

structure StepRow where
  id : Nat
  runId : Nat
  stepName : String
  instruction : String
  startNs : Nat
  endNs : Option Nat
deriving DecidableEq

inductive SessionState where
  | idle
  | runActive (runId : Nat) (kind : RunKind)
  | stepActive (runId : Nat) (kind : RunKind) (stepId : Nat)
deriving DecidableEq

structure Session where
  state : SessionState
  runs : List RunRow
  steps : List StepRow
  nextId : Nat
deriving DecidableEq

inductive ScopeError where
  | invalidTransition
deriving DecidableEq

/-- Modelled from the spec: SessionManager (no implementation under src/).
start_run is valid only from Idle; it creates a Run row with start_ns set
and moves to RunActive. -/
def start_run (now : Nat) (name description : String) (kind : RunKind)
    (s : Session) : Except ScopeError Session :=
  match s.state with
  | .idle =>
    .ok ⟨.runActive s.nextId kind,
         s.runs ++ [⟨s.nextId, name, description, kind, now, none⟩],
         s.steps, s.nextId + 1⟩
  | _ => .error .invalidTransition

/-- Modelled from the spec: SessionManager. start_step is valid only when a
calibration Run is active and no step is open; it creates a
CalibrationStep row with start_ns set. -/
def start_step (now : Nat) (stepName instruction : String) (s : Session) :
    Except ScopeError Session :=
  match s.state with
  | .runActive rid RunKind.calibration =>
    .ok ⟨.stepActive rid .calibration s.nextId, s.runs,
         s.steps ++ [⟨s.nextId, rid, stepName, instruction, now, none⟩],
         s.nextId + 1⟩
  | _ => .error .invalidTransition

def setStepEnd (sid now : Nat) (steps : List StepRow) : List StepRow :=
  steps.map (fun st =>
    if st.id == sid then
      ⟨st.id, st.runId, st.stepName, st.instruction, st.startNs, some now⟩
    else st)

/-- Modelled from the spec: SessionManager. end_step requires an open step;
it sets the step's end_ns and returns to RunActive. -/
def end_step (now : Nat) (s : Session) : Except ScopeError Session :=
  match s.state with
  | .stepActive rid k sid =>
    .ok ⟨.runActive rid k, s.runs, setStepEnd sid now s.steps, s.nextId⟩
  | _ => .error .invalidTransition

def setRunEnd (rid now : Nat) (runs : List RunRow) : List RunRow :=
  runs.map (fun r =>
    if r.id == rid then
      ⟨r.id, r.name, r.description, r.kind, r.startNs, some now⟩
    else r)

/-- Modelled from the spec: SessionManager. end_run requires no open step;
it sets Run.end_ns and moves through RunClosed to Idle. Any other state is
an invalid transition and fails with ScopeError. -/
def end_run (now : Nat) (s : Session) : Except ScopeError Session :=
  match s.state with
  | .runActive rid _ => .ok ⟨.idle, setRunEnd rid now s.runs, s.steps, s.nextId⟩
  | _ => .error .invalidTransition

/-- The total-state view of end_run: on ScopeError the session is returned
untouched alongside the error. -/
def applyEndRun (now : Nat) (s : Session) : Session × Option ScopeError :=
  match end_run now s with
  | .ok s2 => (s2, none)
  | .error e => (s, some e)

/-! ## WriteCoordinator commit (modelled from the spec) -/

structure ScanRow where
  id : Nat
  piTimestampNs : Nat
deriving DecidableEq

structure PointRow where
  scanId : Nat
  angle : Int
  distance : Int
  intensity : Nat
deriving DecidableEq

/-- Committed storage content relevant to the LidarPoint invariant: both
scan tables and both points tables. -/
structure Db where
  calScans : List ScanRow
  calPoints : List PointRow
  scans : List ScanRow
  points : List PointRow
deriving DecidableEq

/-- A batch of records to be committed atomically. -/
structure Batch where
  calScans : List ScanRow
  calPoints : List PointRow
  scans : List ScanRow
  points : List PointRow
deriving DecidableEq

def scanIds (l : List ScanRow) : List Nat := l.map ScanRow.id

def pointsOk (points : List PointRow) (scans : List ScanRow) : Bool :=
  points.all (fun p => (scanIds scans).contains p.scanId)

/-- Every point row of the database references an existing scan row of its
corresponding scan table. -/
def dbInv (db : Db) : Prop :=
  pointsOk db.calPoints db.calScans = true ∧ pointsOk db.points db.scans = true

/-- Modelled from the spec: the WriteCoordinator (no implementation under
src/) commits each batch atomically — all records persist or none do —
enforcing the scan_id foreign keys declared by the schema: a batch whose
points do not all reference a scan existing at commit time is refused. -/
def commitBatch (db : Db) (b : Batch) : Option Db :=
  if pointsOk (db.calPoints ++ b.calPoints) (db.calScans ++ b.calScans) &&
      pointsOk (db.points ++ b.points) (db.scans ++ b.scans) then
    some ⟨db.calScans ++ b.calScans, db.calPoints ++ b.calPoints,
          db.scans ++ b.scans, db.points ++ b.points⟩
  else none

end LidarCode

namespace LidarCode

/-! ## Theorems on the storage schema -/

/-- C3: the persisted schema defines exactly the listed tables — the eight
tables run_metadata, calibration_steps, calibration_imu_data, imu_data,
calibration_lidar_data, lidar_data, calibration_lidar_points, lidar_points,
plus stereo_images — with the spec's columns field-for-field, the
type-in-calibration-scan constraint on run_metadata, and the same
foreign-key relationships. -/
theorem schema_matches_spec_listing :
    List.Perm (schema.map tableToSpecView) specListedTables ∧
    (schema.map Table.name).Nodup := by
  decide

/-- C6 counterexample: the claim that every timestamped table has an index on
its nanosecond timestamp column fails concretely at imu_data, a timestamped
table with no declared index on pi_timestamp_ns. -/
theorem imu_data_timestamp_not_indexed :
    ("imu_data", "pi_timestamp_ns") ∈ timestampedTables ∧
    hasIndexOn "imu_data" "pi_timestamp_ns" = false := by
  decide

/-- C6 (amended): the schema DDL declares no secondary index at all, so no
timestamped table has a declared index on its nanosecond timestamp column;
indexing pi_timestamp_ns appears only as a recommendation in the schema
notes. -/
theorem no_declared_timestamp_indexes :
    ∀ p ∈ timestampedTables, hasIndexOn p.1 p.2 = false := by
  decide

/-- C6 witness: instantiating the no-declared-index theorem at the
lidar_data table. -/
theorem no_declared_timestamp_indexes_witness :
    hasIndexOn "lidar_data" "pi_timestamp_ns" = false :=
  no_declared_timestamp_indexes ("lidar_data", "pi_timestamp_ns") (by decide)

/-- C10: every sensor data table declares pi_timestamp_ns NOT NULL, and both
IMU tables additionally declare arduino_timestamp_s NOT NULL. -/
theorem sensor_tables_not_null_timestamps :
    colNotNull calibration_imu_data "pi_timestamp_ns" = true ∧
    colNotNull imu_data "pi_timestamp_ns" = true ∧
    colNotNull calibration_lidar_data "pi_timestamp_ns" = true ∧
    colNotNull lidar_data "pi_timestamp_ns" = true ∧
    colNotNull stereo_images "pi_timestamp_ns" = true ∧
    colNotNull calibration_imu_data "arduino_timestamp_s" = true ∧
    colNotNull imu_data "arduino_timestamp_s" = true := by
  decide

/-- C4: every sensor table carries exactly one owner foreign key; its
resolved owner kind is calibration or scan and never both; and for the
tables carrying the scope id directly, calibration ownership is exactly a
step_id key into calibration_steps and scan ownership exactly a run_id key
into run_metadata. -/
theorem sensor_table_owner_isolation :
    ∀ t ∈ sensorTables,
      t.foreignKeys.length = 1 ∧
      (tableOwner t = some OwnerKind.calibration ∨
        tableOwner t = some OwnerKind.scan) ∧
      ¬(tableOwner t = some OwnerKind.calibration ∧
        tableOwner t = some OwnerKind.scan) ∧
      (t ∈ directSensorTables →
        (tableOwner t = some OwnerKind.calibration →
          t.foreignKeys = [⟨"step_id", "calibration_steps", "id"⟩]) ∧
        (tableOwner t = some OwnerKind.scan →
          t.foreignKeys = [⟨"run_id", "run_metadata", "id"⟩])) := by
  decide

/-- C4 witness: instantiating the isolation theorem at calibration_imu_data. -/
theorem sensor_table_owner_isolation_witness :
    calibration_imu_data.foreignKeys.length = 1 ∧
    (tableOwner calibration_imu_data = some OwnerKind.calibration ∨
      tableOwner calibration_imu_data = some OwnerKind.scan) ∧
    ¬(tableOwner calibration_imu_data = some OwnerKind.calibration ∧
      tableOwner calibration_imu_data = some OwnerKind.scan) ∧
    (calibration_imu_data ∈ directSensorTables →
      (tableOwner calibration_imu_data = some OwnerKind.calibration →
        calibration_imu_data.foreignKeys =
          [⟨"step_id", "calibration_steps", "id"⟩]) ∧
      (tableOwner calibration_imu_data = some OwnerKind.scan →
        calibration_imu_data.foreignKeys =
          [⟨"run_id", "run_metadata", "id"⟩])) :=
  sensor_table_owner_isolation calibration_imu_data (by decide)

/-! ## Theorems on the firmware clock -/

lemma updateMicros_good (tp t : Nat) (htp : tp ≤ t)
    (hgap : t - tp < 4294967296) :
    updateMicros t ⟨tp % 4294967296, tp - tp % 4294967296⟩ =
      ⟨t % 4294967296, t - t % 4294967296⟩ := by
  unfold updateMicros micros
  dsimp only
  congr 1
  split <;> omega

lemma getSeconds_good (tp t : Nat) (h1 : tp ≤ t)
    (h2 : t - tp < 4294967296) :
    getSecondsSinceBoot t ⟨tp % 4294967296, tp - tp % 4294967296⟩ =
      (((t : ℚ) / 1000000), ⟨t % 4294967296, t - t % 4294967296⟩) := by
  have hs := updateMicros_good tp t h1 h2
  have hfull : t - t % 4294967296 + t % 4294967296 = t :=
    Nat.sub_add_cancel (Nat.mod_le t 4294967296)
  simp only [getSecondsSinceBoot, hs]
  rw [hfull]

lemma runCalls_eq (ts : List Nat) : ∀ prev : Nat, callsOk prev ts = true →
    runCalls ts ⟨prev % 4294967296, prev - prev % 4294967296⟩ =
      ts.map (fun t : Nat => ((t : ℚ) / 1000000)) := by
  induction ts with
  | nil => intro prev _; rfl
  | cons t rest ih =>
    intro prev h
    simp only [callsOk, Bool.and_eq_true, decide_eq_true_eq] at h
    obtain ⟨⟨h1, h2⟩, h3⟩ := h
    simp only [runCalls, getSeconds_good prev t h1 h2, List.map_cons]
    exact congrArg _ (ih t h3)

lemma callsOk_chain (ts : List Nat) : ∀ prev : Nat, callsOk prev ts = true →
    List.Chain' (fun a b : Nat => a ≤ b) (prev :: ts) := by
  induction ts with
  | nil => intro prev _; simp
  | cons t rest ih =>
    intro prev h
    simp only [callsOk, Bool.and_eq_true, decide_eq_true_eq] at h
    exact List.Chain'.cons h.1.1 (ih t h.2)

/-- C7: over any sequence of getSecondsSinceBoot calls whose consecutive
separations stay below 2^32 microseconds, the 32-bit wraparound is extended
to the full count correctly: each returned value equals the true
microseconds since boot divided by 1e6 (exactly, over the rationals), and
the returned values are non-decreasing. -/
theorem seconds_since_boot_correct (ts : List Nat)
    (h : callsOk 0 ts = true) :
    runCalls ts bootState = ts.map (fun t : Nat => ((t : ℚ) / 1000000)) ∧
    List.Chain' (fun a b : ℚ => a ≤ b) (runCalls ts bootState) := by
  have hb : bootState = ⟨0 % 4294967296, 0 - 0 % 4294967296⟩ := by
    unfold bootState
    norm_num
  have heq : runCalls ts bootState = ts.map (fun t : Nat => ((t : ℚ) / 1000000)) := by
    rw [hb]
    exact runCalls_eq ts 0 h
  refine ⟨heq, ?_⟩
  rw [heq]
  have hts : List.Chain' (fun a b : Nat => a ≤ b) ts :=
    (callsOk_chain ts 0 h).tail
  refine List.chain'_map_of_chain' (fun t : Nat => ((t : ℚ) / 1000000))
    ?_ hts
  intro a b hab
  have hq : (a : ℚ) ≤ (b : ℚ) := by exact_mod_cast hab
  exact div_le_div_of_nonneg_right hq (by norm_num)

/-- C7 witness: three wrap boundaries are crossed by the concrete call
times and the returned values are exact. -/
theorem seconds_since_boot_correct_witness :
    runCalls [3, 4000000000, 8000000000, 12000000000] bootState =
      List.map (fun t : Nat => ((t : ℚ) / 1000000))
        [3, 4000000000, 8000000000, 12000000000] ∧
    List.Chain' (fun a b : ℚ => a ≤ b)
      (runCalls [3, 4000000000, 8000000000, 12000000000] bootState) :=
  seconds_since_boot_correct [3, 4000000000, 8000000000, 12000000000]
    (by decide)

/-! ## Theorems on the session state machine -/

/-- C8: calling end_run while a calibration step is open fails with
ScopeError and leaves the session — its state machine, Run rows and Step
rows — unchanged. -/
theorem end_run_with_open_step_rejected (now : Nat) (s : Session)
    (rid : Nat) (k : RunKind) (sid : Nat)
    (h : s.state = SessionState.stepActive rid k sid) :
    end_run now s = Except.error ScopeError.invalidTransition ∧
    applyEndRun now s = (s, some ScopeError.invalidTransition) := by
  have he : end_run now s = Except.error ScopeError.invalidTransition := by
    unfold end_run
    rw [h]
  exact ⟨he, by unfold applyEndRun; rw [he]⟩

/-- C8 witness: a concrete session amid an open calibration step rejects
end_run and is returned untouched. -/
theorem end_run_with_open_step_rejected_witness :
    end_run 99 ⟨SessionState.stepActive 1 RunKind.calibration 2,
        [⟨1, "bench1", "", RunKind.calibration, 10, none⟩],
        [⟨2, 1, "still_IMU", "keep device still", 12, none⟩], 3⟩ =
      Except.error ScopeError.invalidTransition ∧
    applyEndRun 99 ⟨SessionState.stepActive 1 RunKind.calibration 2,
        [⟨1, "bench1", "", RunKind.calibration, 10, none⟩],
        [⟨2, 1, "still_IMU", "keep device still", 12, none⟩], 3⟩ =
      (⟨SessionState.stepActive 1 RunKind.calibration 2,
        [⟨1, "bench1", "", RunKind.calibration, 10, none⟩],
        [⟨2, 1, "still_IMU", "keep device still", 12, none⟩], 3⟩,
       some ScopeError.invalidTransition) :=
  end_run_with_open_step_rejected 99 _ 1 RunKind.calibration 2 rfl

/-! ## Theorems on the firmware JSON lines -/

lemma digitChar_spec (d : Nat) (h : d < 10) :
    (digitChar d).isDigit = true ∧ digitVal (digitChar d) = d ∧
      digitChar d ≠ '-' ∧ (d ≠ 0 → digitChar d ≠ '0') := by
  interval_cases d <;> refine ⟨rfl, rfl, by decide, by decide⟩

lemma natDigits_lt (n : Nat) : ∀ d ∈ natDigits n, d < 10 := by
  induction n using Nat.strong_induction_on with
  | _ n ih =>
    rw [natDigits]
    split
    · intro d hd
      simp only [List.mem_singleton] at hd
      omega
    · intro d hd
      rw [List.mem_append] at hd
      rcases hd with hd | hd
      · exact ih (n / 10) (Nat.div_lt_self (by omega) (by omega)) d hd
      · simp only [List.mem_singleton] at hd
        omega

lemma natDigits_val (n : Nat) : digitsVal (natDigits n) = n := by
  induction n using Nat.strong_induction_on with
  | _ n ih =>
    rw [natDigits]
    split
    · simp [digitsVal]
    · rw [digitsVal, List.foldl_append]
      have h1 : List.foldl (fun a d => a * 10 + d) 0 (natDigits (n / 10)) =
          digitsVal (natDigits (n / 10)) := rfl
      simp only [List.foldl_cons, List.foldl_nil]
      rw [h1, ih (n / 10) (Nat.div_lt_self (by omega) (by omega))]
      omega

lemma natDigits_ne_nil (n : Nat) : natDigits n ≠ [] := by
  rw [natDigits]
  split <;> simp

lemma natDigits_head_pos (n : Nat) (hn : n ≠ 0) :
    ∃ d0 ds, natDigits n = d0 :: ds ∧ d0 ≠ 0 := by
  induction n using Nat.strong_induction_on with
  | _ n ih =>
    rw [natDigits]
    split
    · exact ⟨n, [], rfl, hn⟩
    · rename_i h
      obtain ⟨d0, ds, heq, hd0⟩ :=
        ih (n / 10) (Nat.div_lt_self (by omega) (by omega)) (by omega)
      exact ⟨d0, ds ++ [n % 10], by rw [heq]; rfl, hd0⟩

lemma natDigits_length_le (d : Nat) : ∀ m : Nat, 1 ≤ d → m < 10 ^ d →
    (natDigits m).length ≤ d := by
  induction d with
  | zero => omega
  | succ d ih =>
    intro m _ hm
    rw [natDigits]
    split
    · simp
    · rename_i h
      have hd1 : 1 ≤ d := by
        by_contra hc
        have : d = 0 := by omega
        subst this
        simp at hm
        omega
      have : m / 10 < 10 ^ d := by
        have h10 : (10 : Nat) ^ (d + 1) = 10 * 10 ^ d := by ring
        rw [h10] at hm
        exact Nat.div_lt_of_lt_mul hm
      have := ih (m / 10) hd1 this
      simp only [List.length_append, List.length_cons, List.length_nil]
      omega

lemma takeDigits_stop (rest : List Char) (hrest : headIsDigit rest = false) :
    takeDigits rest = ([], rest) := by
  cases rest with
  | nil => rfl
  | cons c cs =>
    simp only [headIsDigit] at hrest
    simp [takeDigits, hrest]

lemma takeDigits_append (ds : List Nat) (h : ∀ d ∈ ds, d < 10)
    (rest : List Char) (hrest : headIsDigit rest = false) :
    takeDigits (ds.map digitChar ++ rest) = (ds, rest) := by
  induction ds with
  | nil => simpa using takeDigits_stop rest hrest
  | cons d ds ih =>
    have hd := digitChar_spec d (h d (by simp))
    simp only [List.map_cons, List.cons_append, takeDigits, hd.1, if_true,
      List.append_eq]
    rw [ih (fun x hx => h x (by simp [hx]))]
    simp [hd.2.1]

lemma parseJsonInt_natChars (n : Nat) (rest : List Char)
    (hrest : headIsDigit rest = false) :
    parseJsonInt ((natDigits n).map digitChar ++ rest) = some (n, rest) := by
  by_cases h0 : n = 0
  · subst h0
    have hd : natDigits 0 = [0] := by rw [natDigits]; norm_num
    rw [hd]
    rfl
  · obtain ⟨d0, ds, heq, hd0⟩ := natDigits_head_pos n h0
    have hlt : ∀ d ∈ natDigits n, d < 10 := natDigits_lt n
    have hd0lt : d0 < 10 := hlt d0 (by rw [heq]; simp)
    have hspec := digitChar_spec d0 hd0lt
    rw [heq]
    simp only [List.map_cons, List.cons_append, parseJsonInt,
      if_neg (hspec.2.2.2 hd0), hspec.1, if_true]
    rw [takeDigits_append ds (fun x hx => hlt x (by rw [heq]; simp [hx])) rest hrest]
    have hval : digitsVal (digitVal (digitChar d0) :: ds) = n := by
      rw [hspec.2.1]
      have : digitsVal (d0 :: ds) = digitsVal (natDigits n) := by rw [heq]
      rw [this, natDigits_val]
    simp [hval]

lemma padFracDigits_lt (d m : Nat) : ∀ x ∈ padFracDigits d m, x < 10 := by
  intro x hx
  rw [padFracDigits, List.mem_append] at hx
  rcases hx with hx | hx
  · have := List.eq_of_mem_replicate hx
    omega
  · exact natDigits_lt m x hx

lemma padFracDigits_length (d m : Nat) (hd : 1 ≤ d) (hm : m < 10 ^ d) :
    (padFracDigits d m).length = d := by
  have := natDigits_length_le d m hd hm
  simp only [padFracDigits, List.length_append, List.length_replicate]
  omega

lemma digitsVal_cons_zero (l : List Nat) : digitsVal (0 :: l) = digitsVal l := rfl

lemma padFracDigits_val (d m : Nat) : digitsVal (padFracDigits d m) = m := by
  rw [padFracDigits]
  generalize d - (natDigits m).length = k
  induction k with
  | zero => simpa using natDigits_val m
  | succ k ih =>
    rw [List.replicate_succ, List.cons_append, digitsVal_cons_zero]
    exact ih

lemma padFracDigits_ne_nil (d m : Nat) : padFracDigits d m ≠ [] := by
  intro hc
  exact natDigits_ne_nil m (List.append_eq_nil.mp hc).2

lemma parseFrac_pad (d m : Nat) (hd : 1 ≤ d) (hm : m < 10 ^ d)
    (rest : List Char) (hrest : headIsDigit rest = false) :
    parseFrac ('.' :: ((padFracDigits d m).map digitChar ++ rest)) =
      some ((m, d), rest) := by
  simp only [parseFrac, if_pos rfl]
  rw [takeDigits_append (padFracDigits d m) (padFracDigits_lt d m) rest hrest]
  have hne : (padFracDigits d m).isEmpty = false := by
    rw [List.isEmpty_eq_false]
    exact padFracDigits_ne_nil d m
  simp [hne, padFracDigits_val, padFracDigits_length d m hd hm]

lemma parseUNumber_fmt (d a : Nat) (hd : 1 ≤ d) (rest : List Char)
    (hrest : headIsDigit rest = false) :
    parseUNumber (natChars (a / 10 ^ d) ++
        ('.' :: ((padFracDigits d (a % 10 ^ d)).map digitChar ++ rest))) =
      some (⟨(a : Int), d⟩, rest) := by
  unfold parseUNumber natChars
  rw [parseJsonInt_natChars (a / 10 ^ d) _ (by rfl)]
  dsimp only
  rw [parseFrac_pad d (a % 10 ^ d) hd
    (Nat.mod_lt a (Nat.pos_pow_of_pos d (by omega))) rest hrest]
  dsimp only
  rw [Nat.div_add_mod']

lemma parseNumber_fmt (d : Nat) (hd : 1 ≤ d) (v : Int) (rest : List Char)
    (hrest : headIsDigit rest = false) :
    parseNumber (fmtFixedChars d v ++ rest) = some (⟨v, d⟩, rest) := by
  have hkey := parseUNumber_fmt d v.natAbs hd rest hrest
  have hred : ∀ T : List Char, parseNumber ('-' :: T) =
      match parseUNumber T with
      | some (n, r) => some (⟨-n.man, n.dig⟩, r)
      | none => none := fun T => rfl
  by_cases hv : v < 0
  · simp only [fmtFixedChars, if_pos hv, List.append_assoc, List.cons_append,
      List.singleton_append, List.nil_append]
    rw [hred, hkey]
    dsimp only
    have hval : -((v.natAbs : Nat) : Int) = v := by omega
    rw [hval]
  · obtain ⟨d0, ds, heq⟩ :=
      List.exists_cons_of_ne_nil (natDigits_ne_nil (v.natAbs / 10 ^ d))
    have hd0 : d0 < 10 := natDigits_lt _ d0 (by rw [heq]; simp)
    have hspec := digitChar_spec d0 hd0
    have hnc : natChars (v.natAbs / 10 ^ d) = digitChar d0 :: ds.map digitChar := by
      rw [natChars, heq, List.map_cons]
    simp only [fmtFixedChars, if_neg hv, List.nil_append, List.append_assoc,
      List.cons_append]
    rw [hnc, List.cons_append]
    simp only [parseNumber]
    rw [if_neg hspec.2.2.1]
    rw [← List.cons_append, ← hnc, hkey]
    have hval : ((v.natAbs : Nat) : Int) = v := by omega
    rw [hval]

lemma dropLit_append (p l : List Char) : dropLit p (p ++ l) = some l := by
  induction p with
  | nil => rfl
  | cons c cs ih => simp [dropLit, ih]

lemma parseTriple_fmt (d : Nat) (hd : 1 ≤ d) (x y z : Int)
    (rest : List Char) :
    parseTriple (fmtFixedChars d x ++ (',' :: (fmtFixedChars d y ++
        (',' :: (fmtFixedChars d z ++ (']' :: rest)))))) =
      some ((⟨x, d⟩, ⟨y, d⟩, ⟨z, d⟩), rest) := by
  have hcomma : ∀ T : List Char, dropLit [','] (',' :: T) = some T :=
    fun T => rfl
  have hbr : ∀ T : List Char, dropLit [']'] (']' :: T) = some T :=
    fun T => rfl
  unfold parseTriple
  rw [parseNumber_fmt d hd x (',' :: (fmtFixedChars d y ++
    (',' :: (fmtFixedChars d z ++ (']' :: rest))))) rfl]
  dsimp only
  rw [hcomma]
  dsimp only
  rw [parseNumber_fmt d hd y (',' :: (fmtFixedChars d z ++ (']' :: rest))) rfl]
  dsimp only
  rw [hcomma]
  dsimp only
  rw [parseNumber_fmt d hd z (']' :: rest) rfl]
  dsimp only
  rw [hbr]

lemma imuJson_data_none (t : Nat) (ax ay az gx gy gz : Int) :
    (imuJson t ax ay az gx gy gz none).data =
      "\x7b\"t\":".data ++ (fmtFixedChars 6 (t : Int) ++ (",\"acc\":[".data ++ (fmtFixedChars 4 ax ++ (',' :: (fmtFixedChars 4 ay ++ (',' :: (fmtFixedChars 4 az ++ (']' :: (",\"gyro\":[".data ++ (fmtFixedChars 4 gx ++ (',' :: (fmtFixedChars 4 gy ++ (',' :: (fmtFixedChars 4 gz ++ (']' :: ("\x7d".data)))))))))))))))) := by
  simp [imuJson, fmtFixed, String.data_append, List.append_assoc,
    show (",".data : List Char) = [','] from rfl,
    show ("]".data : List Char) = [']'] from rfl]

lemma imuJson_data_some (t : Nat) (ax ay az gx gy gz mx my mz : Int) :
    (imuJson t ax ay az gx gy gz (some (mx, my, mz))).data =
      "\x7b\"t\":".data ++ (fmtFixedChars 6 (t : Int) ++ (",\"acc\":[".data ++ (fmtFixedChars 4 ax ++ (',' :: (fmtFixedChars 4 ay ++ (',' :: (fmtFixedChars 4 az ++ (']' :: (",\"gyro\":[".data ++ (fmtFixedChars 4 gx ++ (',' :: (fmtFixedChars 4 gy ++ (',' :: (fmtFixedChars 4 gz ++ (']' :: (",\"mag\":[".data ++ (fmtFixedChars 1 mx ++ (',' :: (fmtFixedChars 1 my ++ (',' :: (fmtFixedChars 1 mz ++ (']' :: ("\x7d".data))))))))))))))))))))))) := by
  simp [imuJson, fmtFixed, String.data_append, List.append_assoc,
    show (",".data : List Char) = [','] from rfl,
    show ("]".data : List Char) = [']'] from rfl]

lemma parse_imuJson_none (t : Nat) (ax ay az gx gy gz : Int) :
    parseImuLine (imuJson t ax ay az gx gy gz none) =
      some ⟨⟨(t : Int), 6⟩, ⟨ax, 4⟩, ⟨ay, 4⟩, ⟨az, 4⟩,
            ⟨gx, 4⟩, ⟨gy, 4⟩, ⟨gz, 4⟩, none⟩ := by
  rw [parseImuLine, imuJson_data_none]
  unfold parseImuChars
  rw [dropLit_append]
  dsimp only
  rw [parseNumber_fmt 6 (by norm_num) (t : Int) (",\"acc\":[".data ++ (fmtFixedChars 4 ax ++ (',' :: (fmtFixedChars 4 ay ++ (',' :: (fmtFixedChars 4 az ++ (']' :: (",\"gyro\":[".data ++ (fmtFixedChars 4 gx ++ (',' :: (fmtFixedChars 4 gy ++ (',' :: (fmtFixedChars 4 gz ++ (']' :: ("\x7d".data))))))))))))))) rfl]
  dsimp only
  rw [dropLit_append]
  dsimp only
  rw [parseTriple_fmt 4 (by norm_num) ax ay az _]
  dsimp only
  rw [dropLit_append]
  dsimp only
  rw [parseTriple_fmt 4 (by norm_num) gx gy gz _]
  rfl

lemma parse_imuJson_some (t : Nat) (ax ay az gx gy gz mx my mz : Int) :
    parseImuLine (imuJson t ax ay az gx gy gz (some (mx, my, mz))) =
      some ⟨⟨(t : Int), 6⟩, ⟨ax, 4⟩, ⟨ay, 4⟩, ⟨az, 4⟩,
            ⟨gx, 4⟩, ⟨gy, 4⟩, ⟨gz, 4⟩,
            some (⟨mx, 1⟩, ⟨my, 1⟩, ⟨mz, 1⟩)⟩ := by
  rw [parseImuLine, imuJson_data_some]
  unfold parseImuChars
  rw [dropLit_append]
  dsimp only
  rw [parseNumber_fmt 6 (by norm_num) (t : Int) (",\"acc\":[".data ++ (fmtFixedChars 4 ax ++ (',' :: (fmtFixedChars 4 ay ++ (',' :: (fmtFixedChars 4 az ++ (']' :: (",\"gyro\":[".data ++ (fmtFixedChars 4 gx ++ (',' :: (fmtFixedChars 4 gy ++ (',' :: (fmtFixedChars 4 gz ++ (']' :: (",\"mag\":[".data ++ (fmtFixedChars 1 mx ++ (',' :: (fmtFixedChars 1 my ++ (',' :: (fmtFixedChars 1 mz ++ (']' :: ("\x7d".data)))))))))))))))))))))) rfl]
  dsimp only
  rw [dropLit_append]
  dsimp only
  rw [parseTriple_fmt 4 (by norm_num) ax ay az _]
  dsimp only
  rw [dropLit_append]
  dsimp only
  rw [parseTriple_fmt 4 (by norm_num) gx gy gz _]
  dsimp only
  rw [dropLit_append]
  dsimp only
  rw [parseTriple_fmt 1 (by norm_num) mx my mz _]
  rfl

lemma serializeRecord_imuJson (t : Nat) (ax ay az gx gy gz : Int)
    (mag : Option (Int × Int × Int)) :
    serializeRecord ⟨⟨(t : Int), 6⟩, ⟨ax, 4⟩, ⟨ay, 4⟩, ⟨az, 4⟩,
        ⟨gx, 4⟩, ⟨gy, 4⟩, ⟨gz, 4⟩,
        mag.map (fun m => (⟨m.1, 1⟩, ⟨m.2.1, 1⟩, ⟨m.2.2, 1⟩))⟩ =
      imuJson t ax ay az gx gy gz mag := by
  obtain _ | ⟨mx, my, mz⟩ := mag <;>
    simp [serializeRecord, imuJson, fmtNum, fmtFixed]

lemma parse_errorLine : parseImuLine errorLine = none := rfl

lemma loopOutput_record (i : LoopInputs) (h1 : i.accAvail = true)
    (h2 : i.gyroAvail = true) (h3 : i.accOk = true) (h4 : i.gyroOk = true) :
    loopOutput i = some (imuJson i.t i.ax i.ay i.az i.gx i.gy i.gz
      (if i.magAvail && i.magOk then some (i.mx, i.my, i.mz) else none)) := by
  simp [loopOutput, h1, h2, h3, h4]

lemma parse_imuJson (t : Nat) (ax ay az gx gy gz : Int)
    (mag : Option (Int × Int × Int)) :
    parseImuLine (imuJson t ax ay az gx gy gz mag) =
      some ⟨⟨(t : Int), 6⟩, ⟨ax, 4⟩, ⟨ay, 4⟩, ⟨az, 4⟩,
            ⟨gx, 4⟩, ⟨gy, 4⟩, ⟨gz, 4⟩,
            mag.map (fun m => (⟨m.1, 1⟩, ⟨m.2.1, 1⟩, ⟨m.2.2, 1⟩))⟩ := by
  obtain _ | ⟨mx, my, mz⟩ := mag
  · exact parse_imuJson_none t ax ay az gx gy gz
  · exact parse_imuJson_some t ax ay az gx gy gz mx my mz

/-- C2: parsing any firmware event line into the typed record and
re-serializing the record reproduces the line byte-for-byte — so the values
of t, acc, gyro, and mag (when present) are preserved exactly, the 6/4/1
decimal-place renderings being exact for the fixed-point values they
carry. -/
theorem imu_parse_reserialize_exact (t : Nat) (ax ay az gx gy gz : Int)
    (mag : Option (Int × Int × Int)) :
    ∃ rec, parseImuLine (imuJson t ax ay az gx gy gz mag) = some rec ∧
      serializeRecord rec = imuJson t ax ay az gx gy gz mag :=
  ⟨_, parse_imuJson t ax ay az gx gy gz mag,
    serializeRecord_imuJson t ax ay az gx gy gz mag⟩

/-- C1 counterexample: the claim fails as stated over all lines written
after boot — the firmware's setup writes the line Starting... to the serial
port, and that line does not parse as an event JSON object. -/
theorem firmware_line_not_always_event_json :
    "Starting..." ∈ firmwareLines true [] ∧
      parseImuLine "Starting..." = none :=
  ⟨by simp [firmwareLines, setupLines], rfl⟩

/-- C1 (amended): every data-record line the loop emits — i.e. whenever the
acceleration and gyroscope reads both succeed — is a single well-formed
JSON object with numeric field t, 3-element acc and gyro arrays, and an
optional 3-element mag array; the startup status lines and the
sensor-error line the firmware also writes are not of this shape. -/
theorem loop_record_lines_wellformed (i : LoopInputs) (h1 : i.accAvail = true)
    (h2 : i.gyroAvail = true) (h3 : i.accOk = true) (h4 : i.gyroOk = true) :
    ∃ s rec, loopOutput i = some s ∧ parseImuLine s = some rec :=
  ⟨_, _, loopOutput_record i h1 h2 h3 h4,
    parse_imuJson i.t i.ax i.ay i.az i.gx i.gy i.gz
      (if i.magAvail && i.magOk then some (i.mx, i.my, i.mz) else none)⟩

/-- C1 witness: the amended theorem instantiated at a concrete loop
iteration with all reads successful. -/
theorem loop_record_lines_wellformed_witness :
    ∃ s rec,
      loopOutput ⟨true, true, true, true, true, true, 28381891,
        20, -9740, 1580, 3750, 625, -3125, -34, 144, 168⟩ = some s ∧
      parseImuLine s = some rec :=
  loop_record_lines_wellformed _ rfl rfl rfl rfl

/-- C9: in a loop iteration that performs the reads (both availability
checks passed), a data-record line is emitted iff the acceleration and
gyroscope reads both succeed; if either fails the error line is emitted
and the sample is skipped; a failed or unavailable magnetometer read never
suppresses the record and only omits the mag field. -/
theorem loop_emits_record_iff_reads_ok (i : LoopInputs)
    (h1 : i.accAvail = true) (h2 : i.gyroAvail = true) :
    ((∃ s rec, loopOutput i = some s ∧ parseImuLine s = some rec) ↔
      (i.accOk = true ∧ i.gyroOk = true)) ∧
    (¬(i.accOk = true ∧ i.gyroOk = true) → loopOutput i = some errorLine) ∧
    (i.accOk = true → i.gyroOk = true →
      ∃ s rec, loopOutput i = some s ∧ parseImuLine s = some rec ∧
        rec.mag.isSome = (i.magAvail && i.magOk)) := by
  have herr : ¬(i.accOk = true ∧ i.gyroOk = true) →
      loopOutput i = some errorLine := by
    intro h
    cases hacc : i.accOk <;> cases hgyro : i.gyroOk <;>
      simp_all [loopOutput, h1, h2]
  have hrec : i.accOk = true → i.gyroOk = true →
      ∃ s rec, loopOutput i = some s ∧ parseImuLine s = some rec ∧
        rec.mag.isSome = (i.magAvail && i.magOk) := by
    intro h3 h4
    refine ⟨_, _, loopOutput_record i h1 h2 h3 h4,
      parse_imuJson i.t i.ax i.ay i.az i.gx i.gy i.gz
        (if i.magAvail && i.magOk then some (i.mx, i.my, i.mz) else none), ?_⟩
    cases hm : (i.magAvail && i.magOk) <;> simp [hm]
  refine ⟨⟨?_, fun h => ?_⟩, herr, hrec⟩
  · rintro ⟨s, rec, hout, hparse⟩
    by_contra hno
    rw [herr hno] at hout
    injection hout with hs
    rw [← hs, parse_errorLine] at hparse
    cases hparse
  · obtain ⟨s, rec, hout, hparse, _⟩ := hrec h.1 h.2
    exact ⟨s, rec, hout, hparse⟩

/-- C9 witness: a concrete iteration with a failed acceleration read emits
the error line. -/
theorem loop_emits_record_iff_reads_ok_witness :
    loopOutput ⟨true, true, false, true, true, true, 5, 1, 1, 1, 1, 1, 1,
      1, 1, 1⟩ = some errorLine :=
  (loop_emits_record_iff_reads_ok _ rfl rfl).2.1 (by decide)

/-! ## Theorems on the commit path -/

/-- C5: the schema ties both points tables to their scan tables by a
scan_id foreign key, and the modelled atomic commit only ever produces
database states in which every LidarPoint row references an existing scan
row of the corresponding scan table. -/
theorem committed_points_reference_scans :
    (calibration_lidar_points.foreignKeys =
        [⟨"scan_id", "calibration_lidar_data", "id"⟩] ∧
      lidar_points.foreignKeys = [⟨"scan_id", "lidar_data", "id"⟩]) ∧
    ∀ (db : Db) (b : Batch) (db2 : Db),
      commitBatch db b = some db2 → dbInv db2 := by
  refine ⟨by decide, ?_⟩
  intro db b db2 h
  unfold commitBatch at h
  split at h
  case isTrue hc =>
    rw [Bool.and_eq_true] at hc
    cases h
    exact ⟨hc.1, hc.2⟩
  case isFalse hc => cases h

/-- C5 witness: committing a batch holding one calibration scan with its
point and one live scan with its point yields a state satisfying the
no-orphan invariant. -/
theorem committed_points_reference_scans_witness :
    dbInv ⟨[⟨7, 100⟩], [⟨7, 0, 0, 0⟩], [⟨9, 200⟩], [⟨9, 1, 2, 3⟩]⟩ :=
  committed_points_reference_scans.2 ⟨[], [], [], []⟩
    ⟨[⟨7, 100⟩], [⟨7, 0, 0, 0⟩], [⟨9, 200⟩], [⟨9, 1, 2, 3⟩]⟩ _ (by rfl)

end LidarCode
